import Mathlib

set_option autoImplicit false

/-!
Shallow embedding of `src/main.py` (pdftoexcel): a FastAPI service that turns a
ledger image or single-page PDF into a CSV (fixed accounting template) or an
Excel sheet, by prompting a multimodal generation service and reshaping its
textual response.  Python strings are modelled as `List Char`; the external
collaborators (the generation service and `json.loads`) are passed in as
explicit parameters of the request flows.
-/

abbrev PyStr := List Char

/-- Python `str.strip()` (no argument): drop whitespace from both ends. -/
def py_strip (s : PyStr) : PyStr :=
  ((s.dropWhile Char.isWhitespace).reverse.dropWhile Char.isWhitespace).reverse

/-- Python `str.strip('-')` as used for the Bill Number on line 130:
drop `'-'` characters from both ends. -/
def strip_dashes (s : PyStr) : PyStr :=
  ((s.dropWhile (fun c => c == '-')).reverse.dropWhile (fun c => c == '-')).reverse

/-- Python `str.split(',')`: split at every comma, keeping empty pieces
(so `",".split(',') == ['', '']`). -/
def split_comma : PyStr → List PyStr
  | [] => [[]]
  | c :: rest =>
    if c == ',' then [] :: split_comma rest
    else
      match split_comma rest with
      | [] => [[c]]
      | r :: rs => (c :: r) :: rs

/-- Helper for `remove_all`: scan the string left to right; `skip = n` means the
scanner is still inside a matched occurrence and must drop `n` more characters
before looking for the next (non-overlapping) occurrence. -/
def remove_all_aux (pat : PyStr) : PyStr → Nat → PyStr
  | [], _ => []
  | _ :: rest, k + 1 => remove_all_aux pat rest k
  | c :: rest, 0 =>
    if pat.isPrefixOf (c :: rest) then remove_all_aux pat rest (pat.length - 1)
    else c :: remove_all_aux pat rest 0

/-- Python `str.replace(pat, '')` for a non-empty `pat`: remove every
(leftmost, non-overlapping) occurrence of `pat`. -/
def remove_all (pat s : PyStr) : PyStr := remove_all_aux pat s 0

/-- Lines 121 and 171: `response.text.strip().replace("```json", "").replace("```", "")`.
This cleaning step is shared by the template flow and the direct-export flow. -/
def clean_response (s : PyStr) : PyStr :=
  remove_all ("```".toList) (remove_all ("```json".toList) (py_strip s))

/-- Lines 111 to 112: `header_text = response.text.strip()` followed by
`[h.strip() for h in header_text.split(',') if h.strip()]`. -/
def parse_headers (responseText : PyStr) : List PyStr :=
  (split_comma (py_strip responseText)).filterMap
    (fun h => if (py_strip h).isEmpty then none else some (py_strip h))

/-- JSON values as produced by `json.loads`.  Numbers carry a rational value;
no arithmetic is ever performed on them by the program (they are copied into
output cells verbatim), so the numeric representation is never consumed. -/
inductive JValue : Type where
  | null : JValue
  | bool (b : Bool) : JValue
  | num (q : Rat) : JValue
  | str (s : PyStr) : JValue
  | arr (elems : List JValue) : JValue
  | obj (entries : List (PyStr × JValue)) : JValue

/-- Python truthiness of a JSON-shaped value (`if not x`). -/
def py_falsy : JValue → Bool
  | .null => true
  | .bool b => !b
  | .num q => q == 0
  | .str s => s.isEmpty
  | .arr l => l.isEmpty
  | .obj l => l.isEmpty

/-- Python `a or b`. -/
def py_or (a b : JValue) : JValue := if py_falsy a then b else a

/-- Python `str(v)` as used by the f-string on line 130.  The program only ever
formats strings and (after `or ''`) never `None`; rendering of the remaining
constructors is a best-effort abstraction of CPython's `str` and is not
exercised by any claim. -/
def py_str_of : JValue → PyStr
  | .str s => s
  | .null => "None".toList
  | .bool b => if b then "True".toList else "False".toList
  | .num q => (toString q).toList
  | .arr _ => "<list>".toList
  | .obj _ => "<dict>".toList

/-- First-match lookup in an insertion-ordered dict (Python dicts coming from
`json.loads` have unique keys, so first match equals dict lookup). -/
def lookup_str (entries : List (PyStr × JValue)) (k : PyStr) : Option JValue :=
  (entries.find? (fun kv => kv.1 == k)).map (fun kv => kv.2)

/-- Python `d.get(k, default)`. -/
def dictGet (entries : List (PyStr × JValue)) (k : PyStr) (default : JValue) : JValue :=
  (lookup_str entries k).getD default

/-- A Python exception: either a `fastapi.HTTPException` (status plus detail) or
any other exception carrying its `str(e)` rendering. -/
inductive PyExc : Type where
  | http (status : Nat) (detail : PyStr) : PyExc
  | err (msg : PyStr) : PyExc

/-- Python `str(e)`.  For a starlette/fastapi `HTTPException` this renders as
`f"{status_code}: {detail}"`. -/
def PyExc.str : PyExc → PyStr
  | .http s d => (Nat.repr s).toList ++ (": ".toList) ++ d
  | .err m => m

structure HTTPError : Type where
  status : Nat
  detail : PyStr

/-- Result of one request as observed by the caller: a successful payload, an
`HTTPException` (status + detail), or an exception that escaped the endpoint
uncaught (the transport turns it into a bare 500 with no detail from the app). -/
inductive Outcome (α : Type) : Type where
  | success (result : α) : Outcome α
  | httpError (status : Nat) (detail : PyStr) : Outcome α
  | unhandled (e : PyExc) : Outcome α

/-- An `except Exception as e: raise HTTPException(500, pre + str(e))` wrapper
around a try block, as in lines 97 to 98, 115 to 116 and 123 to 124.  Note that
`fastapi.HTTPException` is itself an `Exception`, so an `HTTPException` raised
inside the try block is also caught and re-wrapped. -/
def except_wrap {α : Type} (pre : PyStr) (r : Except PyExc α) : Except HTTPError α :=
  match r with
  | .ok v => .ok v
  | .error e => .error ⟨500, pre ++ e.str⟩

/-- Python `for x in v`: iterating a list yields its elements, a dict its keys,
a string its characters; other values raise `TypeError`. -/
def py_iter : JValue → Except PyExc (List JValue)
  | .arr l => .ok l
  | .obj l => .ok (l.map (fun kv => JValue.str kv.1))
  | .str s => .ok (s.map (fun c => JValue.str [c]))
  | _ => .error (.err ("object is not iterable".toList))

/-- Lines 33 to 41: `create_discovery_prompt()`. -/
def create_discovery_prompt : PyStr :=
  ("\n    Analyze the provided image of a ledger or bill.\n    Your first task is to identify all the unique charge or expense column headers in the table.\n    List only the names of these charge columns.\n    Return the result as a clean, single-line, comma-separated string.\n    Example: Property Tax,Water Charges,Sinking Fund,Maint. Charges\n    ".toList)

/-- Lines 43 to 70: `create_extraction_prompt(discovered_headers)`.  The f-string
interpolates `', '.join(discovered_headers)`, `discovered_headers[0]` and
`discovered_headers[1]`; the two subscripts raise `IndexError` ("list index out
of range") whenever fewer than two headers were discovered. -/
def create_extraction_prompt (discovered_headers : List PyStr) : Except PyExc PyStr :=
  match discovered_headers with
  | h0 :: h1 :: _ =>
    .ok
      (("\n    You are an expert data entry clerk. Analyze the provided image of a ledger.\n    Based on the following charge categories that were discovered from this document: ".toList)
        ++ List.intercalate (", ".toList) discovered_headers
        ++ ("\n    Your task is to extract information for every single member listed and structure the data into a valid JSON array.\n\n    RULES FOR EXTRACTION:\n    1. For each member, you MUST extract their \"Wing\", \"Unit No\", and \"Member Name\".\n    2. If a \"Member Name\" is not explicitly given for a row, set its value to null.\n    3. For each discovered charge category, extract the corresponding monetary value for the member.\n    4. If a member does not have a value for a specific charge (i.e., the cell is blank), you MUST represent it as null in the output.\n    5. The final output must be a clean, raw JSON array and nothing else.\n\n    The JSON schema you must follow is:\n    [\n        \x7b\n            \"Wing\": \"string or null\",\n            \"Unit No\": \"string or null\",\n            \"Member Name\": \"string or null\",\n            \"Charges\": \x7b\n                \"".toList)
        ++ h0
        ++ ("\": \"float or null\",\n                \"".toList)
        ++ h1
        ++ ("\": \"float or null\",\n                \"...and so on for all discovered headers\"\n            \x7d\n        \x7d\n    ]\n    ".toList))
  | _ => .error (.err ("list index out of range".toList))

/-- Lines 72 to 82: `create_direct_export_prompt()`. -/
def create_direct_export_prompt : PyStr :=
  ("\n    You are an expert at table data extraction.\n    Analyze the provided image and identify the main table.\n    Extract all the data from the table exactly as it appears, row by row.\n    Return the result as a valid JSON array of objects, where each object represents a row.\n    Use the table's headers as the keys for each object.\n    Do not add, omit, or transform any data. Preserve the exact structure and content.\n    The output must only be the raw JSON array.\n    ".toList)

/-- The three accepted upload content types (line 86). -/
def allowed_types : List PyStr :=
  [("image/jpeg".toList), ("image/png".toList), ("application/pdf".toList)]

/-- The body of the `try` on lines 92 to 96: `convert_from_bytes` (whose outcome
is the `pdfDecoded` parameter, `.error msg` being a decode fault), then
`raise HTTPException(400, ...)` when no page was decoded, else `images[0]`. -/
def pdf_try_body {Img : Type} (pdfDecoded : Except PyStr (List Img)) : Except PyExc Img :=
  match pdfDecoded with
  | .error e => .error (.err e)
  | .ok [] => .error (.http 400 ("Could not extract an image from the PDF.".toList))
  | .ok (i :: _) => .ok i

/-- Lines 85 to 100: `get_image_from_upload(file)`.  The external decoders are
parameters: `pdfDecoded` is the result of `pdf2image.convert_from_bytes` and
`imageOpened` the result of `PIL.Image.open` (which runs outside any `try`, so
its faults escape uncaught). -/
def get_image_from_upload {Img : Type} (contentType : PyStr)
    (pdfDecoded : Except PyStr (List Img)) (imageOpened : Except PyStr Img) : Outcome Img :=
  if !(allowed_types.contains contentType) then
    .httpError 400 ("Unsupported file type.".toList)
  else if contentType == ("application/pdf".toList) then
    match except_wrap ("PDF processing failed: ".toList) (pdf_try_body pdfDecoded) with
    | .ok i => .success i
    | .error e => .httpError e.status e.detail
  else
    match imageOpened with
    | .ok i => .success i
    | .error e => .unhandled (.err e)

/-- The `try` body of lines 109 to 114: parse the discovery response and raise
`HTTPException(400, ...)` when no header label survives. -/
def discovery_try_body (respText : PyStr) : Except PyExc (List PyStr) :=
  let headers := parse_headers respText
  if headers.isEmpty then
    .error (.http 400 ("Could not identify any expense headers in the document.".toList))
  else .ok headers

/-- Lines 108 to 116: the discovery stage with its blanket `except Exception`
(which also catches and re-wraps the inner 400 `HTTPException`). -/
def discovery_stage (respText : PyStr) : Except HTTPError (List PyStr) :=
  except_wrap ("Failed to discover headers from the document: ".toList) (discovery_try_body respText)

/-- Key `f"Expense Code {n}"`. -/
def expense_code_key (n : Nat) : PyStr := ("Expense Code ".toList) ++ (Nat.repr n).toList

/-- Key `f"Expense Amount {n}"`. -/
def expense_amount_key (n : Nat) : PyStr := ("Expense Amount ".toList) ++ (Nat.repr n).toList

/-- Line 130: `f"{member.get('Wing', '') or ''}-{member.get('Unit No', '') or ''}".strip('-')`. -/
def bill_number (m : List (PyStr × JValue)) : PyStr :=
  strip_dashes
    (py_str_of (py_or (dictGet m ("Wing".toList) (.str [])) (.str []))
      ++ ('-' :: py_str_of (py_or (dictGet m ("Unit No".toList) (.str [])) (.str []))))

/-- Lines 129 to 139: the fixed fields of `flat_row`, in insertion order. -/
def template_fixed_fields (m : List (PyStr × JValue)) : List (PyStr × JValue) :=
  [(("Bill Number".toList), JValue.str (bill_number m)),
   (("Bill Date".toList), JValue.null),
   (("Vendor Code".toList), JValue.null),
   (("Due Date".toList), JValue.null),
   (("Narration".toList), dictGet m ("Member Name".toList) JValue.null),
   (("CGST Tax Ledger Code".toList), JValue.null), (("CGST Amount".toList), JValue.null),
   (("SGST Tax Ledger Code".toList), JValue.null), (("SGST Amount".toList), JValue.null),
   (("IGST Tax Ledger Code".toList), JValue.null), (("IGST Amount".toList), JValue.null),
   (("TDS Code".toList), JValue.null), (("TDS Amount".toList), JValue.null)]

/-- Python `charges.get(header)` (single-argument `get`, default `None`);
calling `.get` on a non-dict raises `AttributeError`. -/
def charges_get (charges : JValue) (k : PyStr) : Except PyExc JValue :=
  match charges with
  | .obj entries => .ok (dictGet entries k .null)
  | _ => .error (.err ("object has no get method".toList))

/-- Lines 141 to 146: `for i, header in enumerate(discovered_headers)` with the
`if column_number > 10: break` guard; each iteration appends the
`Expense Code i+1` / `Expense Amount i+1` pair. -/
def expense_loop (charges : JValue) : Nat → List PyStr → Except PyExc (List (PyStr × JValue))
  | _, [] => .ok []
  | i, hd :: tl =>
    if i + 1 > 10 then .ok []
    else
      match charges_get charges hd with
      | .error e => .error e
      | .ok amount =>
        match expense_loop charges (i + 1) tl with
        | .error e => .error e
        | .ok rest =>
          .ok ((expense_code_key (i + 1), JValue.str hd) :: (expense_amount_key (i + 1), amount) :: rest)

/-- Lines 147 to 152: `for i in range(start_index, 10)` null padding (Python's
`range(s, 10)` is `List.range' s (10 - s)`). -/
def pad_from (s : Nat) : List (PyStr × JValue) :=
  (List.range' s (10 - s)).flatMap
    (fun i => [(expense_code_key (i + 1), JValue.null), (expense_amount_key (i + 1), JValue.null)])

/-- Lines 128 to 153: build one `flat_row` from one extracted member.  `.get` on
a non-dict member, or `charges.get` on a non-dict `Charges` value, raises
`AttributeError` (uncaught by the endpoint). -/
def flatten_member (headers : List PyStr) (member : JValue) : Except PyExc (List (PyStr × JValue)) :=
  match member with
  | .obj m =>
    match expense_loop (dictGet m ("Charges".toList) (.obj [])) 0 headers with
    | .error e => .error e
    | .ok expensePairs => .ok (template_fixed_fields m ++ expensePairs ++ pad_from headers.length)
  | _ => .error (.err ("object has no get method".toList))

/-- Sequence a list of fallible row constructions, stopping at the first
exception (the Python loop simply propagates it). -/
def map_members (f : JValue → Except PyExc (List (PyStr × JValue))) :
    List JValue → Except PyExc (List (List (PyStr × JValue)))
  | [] => .ok []
  | x :: xs =>
    match f x with
    | .error e => .error e
    | .ok r =>
      match map_members f xs with
      | .error e => .error e
      | .ok rs => .ok (r :: rs)

/-- Lines 126 to 153: `all_rows = []` and the `for member in extracted_data`
loop (iterating whatever value `json.loads` produced). -/
def template_rows (headers : List PyStr) (extracted : JValue) :
    Except PyExc (List (List (PyStr × JValue))) :=
  match py_iter extracted with
  | .error e => .error e
  | .ok members => map_members (flatten_member headers) members

/-- Lines 104 to 160: the whole `/process-document/` flow after image
acquisition.  `loads` models `json.loads` (error = the parse fault's `str`);
the generation service is modelled by the two response texts.  The second
component is the list of prompts actually sent to the generation service, in
order, so that "the extraction call was never made" is observable. -/
def process_document (loads : PyStr → Except PyStr JValue)
    (discoveryResp extractionResp : PyStr) :
    Outcome (List (List (PyStr × JValue))) × List PyStr :=
  match discovery_stage discoveryResp with
  | .error e => (.httpError e.status e.detail, [create_discovery_prompt])
  | .ok headers =>
    match create_extraction_prompt headers with
    | .error e =>
      (.httpError 500 (("An error occurred during data extraction: ".toList) ++ e.str),
        [create_discovery_prompt])
    | .ok extractionPrompt =>
      match loads (clean_response extractionResp) with
      | .error msg =>
        (.httpError 500 (("An error occurred during data extraction: ".toList) ++ msg),
          [create_discovery_prompt, extractionPrompt])
      | .ok extracted =>
        match template_rows headers extracted with
        | .error e => (.unhandled e, [create_discovery_prompt, extractionPrompt])
        | .ok rows =>
          if rows.isEmpty then
            (.httpError 400 ("No data could be processed.".toList),
              [create_discovery_prompt, extractionPrompt])
          else (.success rows, [create_discovery_prompt, extractionPrompt])

/-- Check that every extracted element is a JSON object, returning the entry
lists; `pandas.DataFrame` is only modelled for such record lists. -/
def all_objs : List JValue → Option (List (List (PyStr × JValue)))
  | [] => some []
  | .obj e :: rest => (all_objs rest).map (fun rs => e :: rs)
  | _ => none

/-- One step of pandas' column collection: append a key unless already seen. -/
def insert_key (acc : List PyStr) (k : PyStr) : List PyStr :=
  if acc.contains k then acc else acc ++ [k]

/-- The columns `pandas.DataFrame(list_of_dicts)` produces: the union of keys
across all rows, in order of first appearance. -/
def first_seen_columns (rows : List (List (PyStr × JValue))) : List PyStr :=
  rows.foldl (fun acc r => r.foldl (fun a kv => insert_key a kv.1) acc) []

/-- Line 179: `pd.DataFrame(extracted_data)` for a JSON array of objects, as a
(columns, row-major cells) table; a cell whose key is absent from its row is
`NaN`, modelled as `null`.  pandas' behaviour on non-record inputs is not
reached by any claim and is modelled as an (unnamed) error. -/
def data_frame_records (v : JValue) : Except PyExc (List PyStr × List (List JValue)) :=
  match v with
  | .arr elems =>
    match all_objs elems with
    | some rows =>
      let cols := first_seen_columns rows
      .ok (cols, rows.map (fun r => cols.map (fun c => dictGet r c JValue.null)))
    | none => .error (.err ("DataFrame construction for non-record rows is not modelled".toList))
  | _ => .error (.err ("DataFrame construction for non-list input is not modelled".toList))

/-- The spreadsheet produced by `df.to_excel(excel_buffer, index=False,
sheet_name="Extracted Data")`: one sheet, optional index column, columns and
row-major cells. -/
structure XTable : Type where
  sheetName : PyStr
  hasIndexColumn : Bool
  columns : List PyStr
  cells : List (List JValue)

/-- Lines 164 to 185: the whole `/export-to-excel/` flow after image
acquisition, parameterised by `json.loads` and the generation service's
response text. -/
def export_to_excel (loads : PyStr → Except PyStr JValue) (resp : PyStr) : Outcome XTable :=
  match loads (clean_response resp) with
  | .error msg =>
    .httpError 500 (("An error occurred during data extraction: ".toList) ++ msg)
  | .ok extracted =>
    if py_falsy extracted then
      .httpError 400 ("No data could be extracted for Excel export.".toList)
    else
      match data_frame_records extracted with
      | .error e => .unhandled e
      | .ok (cols, cells) =>
        .success ⟨("Extracted Data".toList), false, cols, cells⟩

/-- Keep only the first occurrence of every key, preserving order: the
specification's "union of keys across rows in first-seen order". -/
def dedup_first : List PyStr → List PyStr
  | [] => []
  | k :: ks => k :: dedup_first (ks.filter (fun x => !(x == k)))
termination_by l => l.length
decreasing_by
  simp only [List.length_cons]
  exact Nat.lt_succ_of_le (List.length_filter_le _ _)

/-- The expansion of one `Expense Code {i+1}` / `Expense Amount {i+1}` pair as
the specification describes it: for a header index below the header count the
pair carries the header label and the member's charge value for it, otherwise
both fields are null. -/
def spec_pair (headers : List PyStr) (c : List (PyStr × JValue)) (i : Nat) :
    List (PyStr × JValue) :=
  match headers[i]? with
  | some hd => [(expense_code_key (i + 1), JValue.str hd),
                (expense_amount_key (i + 1), dictGet c hd JValue.null)]
  | none => [(expense_code_key (i + 1), JValue.null), (expense_amount_key (i + 1), JValue.null)]

/-- Exactly ten expense pairs, indices 1 to 10, as the specification describes
them (suffix version, starting at index `i`). -/
def spec_expense_from (headers : List PyStr) (c : List (PyStr × JValue)) (i : Nat) :
    List (PyStr × JValue) :=
  (List.range' i (10 - i)).flatMap (spec_pair headers c)

/-- The full `Expense Code 1..10` / `Expense Amount 1..10` block per the
specification. -/
def spec_expense_pairs (headers : List PyStr) (c : List (PyStr × JValue)) :
    List (PyStr × JValue) :=
  spec_expense_from headers c 0

/-- A `json.loads` stand-in that always reports a parse fault; the C4 run fails
before any extraction text is parsed, so it is never consulted. -/
def loads_fail : PyStr → Except PyStr JValue :=
  fun _ => .error ("Expecting value: line 1 column 1 (char 0)".toList)

/-- A `json.loads` stand-in defined exactly on the cleaned text `"{}"`, which
CPython parses to the empty dict. -/
def loads_empty_obj : PyStr → Except PyStr JValue :=
  fun s => if s == ("\x7b\x7d".toList) then .ok (.obj []) else .error ("Expecting value".toList)

/-- A `json.loads` stand-in defined exactly on the cleaned text `"[]"`, which
CPython parses to the empty list. -/
def loads_empty_arr : PyStr → Except PyStr JValue :=
  fun s => if s == ("[]".toList) then .ok (.arr []) else .error ("Expecting value".toList)

/-- A `json.loads` stand-in returning a fixed two-record JSON array (the rows
overlap on key "a" and introduce "b" and "c" in first-seen order). -/
def loads_two_rows : PyStr → Except PyStr JValue :=
  fun _ => .ok (.arr
    [JValue.obj [(("a".toList), JValue.str ("1".toList)), (("b".toList), JValue.str ("2".toList))],
     JValue.obj [(("c".toList), JValue.str ("3".toList)), (("a".toList), JValue.str ("4".toList))]])

/-- The effective text of `member.get(k, '') or ''` when the stored value is
absent, null, or a string: absent and null coerce to the empty string. -/
def opt_text (v : Option JValue) (s : PyStr) : Prop :=
  (v = none ∧ s = []) ∨ (v = some JValue.null ∧ s = []) ∨ v = some (JValue.str s)

/-- The pure value computed by `expense_loop` when `Charges` is a dict (the
loop can then never raise). -/
def pure_exp (c : List (PyStr × JValue)) : Nat → List PyStr → List (PyStr × JValue)
  | _, [] => []
  | i, hd :: tl =>
    if i + 1 > 10 then []
    else (expense_code_key (i + 1), JValue.str hd)
      :: (expense_amount_key (i + 1), dictGet c hd JValue.null) :: pure_exp c (i + 1) tl

/-- The typical code-fenced form of a model response: the payload surrounded by
triple-backtick markers with a "json" tag. -/
def code_fence_wrap (t : PyStr) : PyStr :=
  ("```json\n".toList) ++ t ++ ("\n```".toList)

theorem filterMap_strip_eq (l : List PyStr) :
    l.filterMap (fun h => if (py_strip h).isEmpty then none else some (py_strip h))
      = (l.map py_strip).filter (fun s => !s.isEmpty) := by
  induction l with
  | nil => rfl
  | cons h t ih =>
    by_cases hc : (py_strip h).isEmpty
    · rw [List.filterMap_cons, if_pos hc, ih, List.map_cons, List.filter_cons, hc]
      rfl
    · have hc' : (py_strip h).isEmpty = false := by simpa using hc
      rw [List.filterMap_cons, if_neg hc, ih, List.map_cons, List.filter_cons, hc']
      rfl

/-- C3: header parsing splits on commas, trims each piece, drops empty pieces,
preserves order (it is exactly the filtered map over the split), and does not
deduplicate, as the two concrete inputs show. -/
theorem c3_header_parsing :
    (∀ t : PyStr, parse_headers t
        = ((split_comma (py_strip t)).map py_strip).filter (fun s => !s.isEmpty))
    ∧ parse_headers ("Property Tax, Water Charges ,,Sinking Fund".toList)
        = [("Property Tax".toList), ("Water Charges".toList), ("Sinking Fund".toList)]
    ∧ parse_headers ("A, B ,A".toList) = [("A".toList), ("B".toList), ("A".toList)] :=
  ⟨fun _ => filterMap_strip_eq _, rfl, rfl⟩


/-- C4 (code bug evidence): a discovery response with no surviving label (here
`","`) makes the flow fail immediately and the extraction call is never made
(only the discovery prompt was sent), but the caller sees status 500 — the
inner `HTTPException(400, "Could not identify ...")` is swallowed by the
blanket `except Exception` of lines 115 to 116 and re-raised as a 500. -/
theorem c4_no_headers_wrapped_500 :
    process_document loads_fail (",".toList) ("[]".toList)
      = (.httpError 500 ("Failed to discover headers from the document: 400: Could not identify any expense headers in the document.".toList),
        [create_discovery_prompt]) := rfl

/-- C5 (code bug evidence): a PDF decoding to zero pages triggers the inner
`HTTPException(400, "Could not extract an image from the PDF.")`, but the
`except Exception` of lines 97 to 98 re-wraps it, so the caller sees status
500; a lower-level decode fault is wrapped into the same 500 `ProcessingError`
shape, as the claim says. -/
theorem c5_pdf_empty_wrapped_500 :
    (get_image_from_upload ("application/pdf".toList) (Except.ok ([] : List Nat)) (Except.ok 0)
      = .httpError 500 ("PDF processing failed: 400: Could not extract an image from the PDF.".toList))
    ∧ (get_image_from_upload ("application/pdf".toList)
        (Except.error ("Unable to get page count. Is poppler installed and in PATH?".toList))
        (Except.ok (0 : Nat))
      = .httpError 500 ("PDF processing failed: Unable to get page count. Is poppler installed and in PATH?".toList)) :=
  ⟨rfl, rfl⟩

theorem discovery_stage_ok (d : PyStr) (h : (parse_headers d).isEmpty = false) :
    discovery_stage d = .ok (parse_headers d) := by
  simp [discovery_stage, discovery_try_body, h, except_wrap]

theorem create_extraction_prompt_ok {hs : List PyStr} (h : 2 ≤ hs.length) :
    ∃ p, create_extraction_prompt hs = .ok p := by
  cases hs with
  | nil => exact absurd h (by simp)
  | cons h0 t =>
    cases t with
    | nil => exact absurd h (by simp)
    | cons h1 t' => exact ⟨_, rfl⟩

theorem parse_headers_not_empty {d : PyStr} (h : 2 ≤ (parse_headers d).length) :
    (parse_headers d).isEmpty = false := by
  cases hp : parse_headers d with
  | nil => rw [hp] at h; simp at h
  | cons a l => rfl

/-- C10: the round-2 prompt construction subscripts `discovered_headers[0]` and
`discovered_headers[1]`, so it is only defined for at least two headers; with
exactly one discovered header the template flow fails in the extraction stage
with a 500 whose detail carries the `IndexError`, the extraction call is never
made, even though discovery succeeded with a non-empty header list. -/
theorem c10_extraction_prompt_indexing :
    (∀ headers : List PyStr, headers.length < 2 →
      create_extraction_prompt headers = .error (.err ("list index out of range".toList)))
    ∧ (∀ headers : List PyStr, 2 ≤ headers.length →
      ∃ p, create_extraction_prompt headers = .ok p)
    ∧ (∀ (loads : PyStr → Except PyStr JValue) (d resp : PyStr),
      (parse_headers d).length = 1 →
      process_document loads d resp
        = (.httpError 500 ("An error occurred during data extraction: list index out of range".toList),
          [create_discovery_prompt])) := by
  refine ⟨?_, fun headers h => create_extraction_prompt_ok h, ?_⟩
  · intro headers hlt
    cases headers with
    | nil => rfl
    | cons h0 t =>
      cases t with
      | nil => rfl
      | cons h1 t' => exfalso; simp only [List.length_cons] at hlt; omega
  · intro loads d resp hlen
    obtain ⟨h, hh⟩ := List.length_eq_one.mp hlen
    have hne : (parse_headers d).isEmpty = false := by rw [hh]; rfl
    have hd := discovery_stage_ok d hne
    rw [hh] at hd
    simp only [process_document, hd]
    rfl


/-- C6 counterexample: an extraction response whose top level is a JSON object,
not an array (here `"{}"`), is NOT rejected with a 500 extraction error; the
parse succeeds, the flattening loop iterates the (empty) dict, and the request
fails with the 400 "No data could be processed." error instead. -/
theorem c6_counterexample :
    (process_document loads_empty_obj ("A,B".toList) ("\x7b\x7d".toList)).1
      = .httpError 400 ("No data could be processed.".toList) := rfl

/-- C6 (amended): a malformed extraction response fails with the 500 extraction
error carrying the underlying parse fault and produces no output; but a
successfully parsed non-array top level is not rejected at parse time — the
flattening loop iterates whatever value was parsed, so an empty JSON object
ends in the 400 no-data error (see the second conjunct). -/
theorem c6_extraction_parse_handling :
    (∀ (loads : PyStr → Except PyStr JValue) (d resp msg : PyStr),
      2 ≤ (parse_headers d).length →
      loads (clean_response resp) = .error msg →
      (process_document loads d resp).1
        = .httpError 500 (("An error occurred during data extraction: ".toList) ++ msg))
    ∧ ((process_document loads_empty_obj ("A,B".toList) ("\x7b\x7d".toList)).1
        = .httpError 400 ("No data could be processed.".toList)) := by
  refine ⟨?_, rfl⟩
  intro loads d resp msg hlen hloads
  obtain ⟨p, hp⟩ := create_extraction_prompt_ok hlen
  simp only [process_document, discovery_stage_ok d (parse_headers_not_empty hlen), hp, hloads]

theorem c6_witness :
    ((2 ≤ (parse_headers ("A,B".toList)).length)
      ∧ loads_fail (clean_response ("[]".toList))
          = .error ("Expecting value: line 1 column 1 (char 0)".toList))
    ∧ (process_document loads_fail ("A,B".toList) ("[]".toList)).1
        = .httpError 500 (("An error occurred during data extraction: ".toList)
            ++ ("Expecting value: line 1 column 1 (char 0)".toList)) :=
  ⟨⟨by decide, rfl⟩, c6_extraction_parse_handling.1 loads_fail _ _ _ (by decide) rfl⟩

/-- C8: when extraction succeeds but yields zero members (template flow) or
zero rows (direct flow), the request fails with the 400 no-data error and no
output stream is produced. -/
theorem c8_no_data_400 :
    (∀ (loads : PyStr → Except PyStr JValue) (d resp : PyStr),
      2 ≤ (parse_headers d).length →
      loads (clean_response resp) = .ok (JValue.arr []) →
      (process_document loads d resp).1
        = .httpError 400 ("No data could be processed.".toList))
    ∧ (∀ (loads : PyStr → Except PyStr JValue) (resp : PyStr),
      loads (clean_response resp) = .ok (JValue.arr []) →
      export_to_excel loads resp
        = .httpError 400 ("No data could be extracted for Excel export.".toList)) := by
  constructor
  · intro loads d resp hlen hloads
    obtain ⟨p, hp⟩ := create_extraction_prompt_ok hlen
    simp only [process_document, discovery_stage_ok d (parse_headers_not_empty hlen), hp, hloads]
    rfl
  · intro loads resp hloads
    simp only [export_to_excel, hloads]
    rfl


theorem c8_witness :
    ((2 ≤ (parse_headers ("A,B".toList)).length)
      ∧ loads_empty_arr (clean_response ("[]".toList)) = .ok (JValue.arr [])
      ∧ (process_document loads_empty_arr ("A,B".toList) ("[]".toList)).1
          = .httpError 400 ("No data could be processed.".toList))
    ∧ (loads_empty_arr (clean_response ("[]".toList)) = .ok (JValue.arr [])
      ∧ export_to_excel loads_empty_arr ("[]".toList)
          = .httpError 400 ("No data could be extracted for Excel export.".toList)) :=
  ⟨⟨by decide, rfl, c8_no_data_400.1 loads_empty_arr _ _ (by decide) rfl⟩,
    ⟨rfl, c8_no_data_400.2 loads_empty_arr _ rfl⟩⟩

theorem c10_witness :
    (((["Maintenance".toList] : List PyStr).length < 2)
      ∧ create_extraction_prompt [("Maintenance".toList)]
          = .error (.err ("list index out of range".toList)))
    ∧ ((parse_headers ("Maintenance".toList)).length = 1
      ∧ process_document loads_fail ("Maintenance".toList) ("[]".toList)
          = (.httpError 500 ("An error occurred during data extraction: list index out of range".toList),
            [create_discovery_prompt])) :=
  ⟨⟨by decide, c10_extraction_prompt_indexing.1 [("Maintenance".toList)] (by decide)⟩,
    ⟨by decide, c10_extraction_prompt_indexing.2.2 loads_fail _ _ (by decide)⟩⟩


theorem get_or_text {m : List (PyStr × JValue)} {k : PyStr} {w : PyStr}
    (h : opt_text (lookup_str m k) w) :
    py_str_of (py_or (dictGet m k (.str [])) (.str [])) = w := by
  rcases h with ⟨h1, h2⟩ | ⟨h1, h2⟩ | h1
  · subst h2; simp [dictGet, h1, py_or, py_falsy, py_str_of]
  · subst h2; simp [dictGet, h1, py_or, py_falsy, py_str_of]
  · by_cases hw : w.isEmpty
    · have hnil : w = [] := by simpa using hw
      subst hnil; simp [dictGet, h1, py_or, py_falsy, py_str_of]
    · have hw' : w.isEmpty = false := by simpa using hw
      simp [dictGet, h1, py_or, py_falsy, py_str_of, hw']

/-- C2: the Bill Number is the hyphen-join of the Wing and Unit No texts
(absent/null treated as empty) with leading and trailing hyphens stripped, and
the flattened row always stores it as a string value (never null); the four
boundary examples of the claim follow. -/
theorem c2_bill_number :
    (∀ (m : List (PyStr × JValue)) (w u : PyStr),
      opt_text (lookup_str m ("Wing".toList)) w →
      opt_text (lookup_str m ("Unit No".toList)) u →
      bill_number m = strip_dashes (w ++ ('-' :: u))
        ∧ ∀ (headers : List PyStr) (row : List (PyStr × JValue)),
            flatten_member headers (.obj m) = .ok row →
            lookup_str row ("Bill Number".toList) = some (JValue.str (bill_number m)))
    ∧ bill_number [(("Wing".toList), .str ("B".toList)), (("Unit No".toList), .str ("205".toList))]
        = ("B-205".toList)
    ∧ bill_number [(("Unit No".toList), .str ("205".toList))] = ("205".toList)
    ∧ bill_number [(("Wing".toList), .str ("B".toList))] = ("B".toList)
    ∧ bill_number [(("Wing".toList), JValue.null), (("Unit No".toList), JValue.null)] = []
    ∧ bill_number [] = [] := by
  refine ⟨?_, rfl, rfl, rfl, rfl, rfl⟩
  intro m w u hw hu
  constructor
  · unfold bill_number
    rw [get_or_text hw, get_or_text hu]
  · intro headers row hrow
    unfold flatten_member at hrow
    dsimp only at hrow
    cases he : expense_loop (dictGet m ("Charges".toList) (.obj [])) 0 headers with
    | error e => rw [he] at hrow; exact Except.noConfusion hrow
    | ok exp =>
      rw [he] at hrow
      have hr : row = template_fixed_fields m ++ exp ++ pad_from headers.length := by
        cases hrow; rfl
      subst hr
      simp [template_fixed_fields, lookup_str, List.find?]

theorem c2_witness :
    opt_text (lookup_str [(("Wing".toList), JValue.str ("B".toList)),
        (("Unit No".toList), JValue.str ("205".toList))] ("Wing".toList)) ("B".toList)
    ∧ opt_text (lookup_str [(("Wing".toList), JValue.str ("B".toList)),
        (("Unit No".toList), JValue.str ("205".toList))] ("Unit No".toList)) ("205".toList)
    ∧ (bill_number [(("Wing".toList), JValue.str ("B".toList)),
          (("Unit No".toList), JValue.str ("205".toList))]
        = strip_dashes (("B".toList) ++ ('-' :: ("205".toList)))
      ∧ ∀ (headers : List PyStr) (row : List (PyStr × JValue)),
          flatten_member headers (.obj [(("Wing".toList), JValue.str ("B".toList)),
            (("Unit No".toList), JValue.str ("205".toList))]) = .ok row →
          lookup_str row ("Bill Number".toList)
            = some (JValue.str (bill_number [(("Wing".toList), JValue.str ("B".toList)),
                (("Unit No".toList), JValue.str ("205".toList))]))) :=
  ⟨Or.inr (Or.inr rfl), Or.inr (Or.inr rfl),
    c2_bill_number.1 _ _ _ (Or.inr (Or.inr rfl)) (Or.inr (Or.inr rfl))⟩


theorem expense_loop_obj (c : List (PyStr × JValue)) :
    ∀ (i : Nat) (hs : List PyStr), expense_loop (.obj c) i hs = .ok (pure_exp c i hs) := by
  intro i hs
  induction hs generalizing i with
  | nil => rfl
  | cons hd tl ih =>
    unfold expense_loop pure_exp
    by_cases h : i + 1 > 10
    · simp [h]
    · simp [h, charges_get, ih]

theorem exp_bridge_ge (c : List (PyStr × JValue)) (headers : List PyStr) (i : Nat)
    (h10 : 10 ≤ i) :
    pure_exp c i (headers.drop i) ++ pad_from (max i headers.length)
      = spec_expense_from headers c i := by
  have h1 : pure_exp c i (headers.drop i) = [] := by
    cases hd : headers.drop i with
    | nil => rfl
    | cons a l => unfold pure_exp; rw [if_pos (by omega)]
  have h2 : pad_from (max i headers.length) = [] := by
    unfold pad_from
    rw [Nat.sub_eq_zero_of_le (le_trans h10 (Nat.le_max_left _ _))]
    rfl
  have h3 : spec_expense_from headers c i = [] := by
    unfold spec_expense_from
    rw [Nat.sub_eq_zero_of_le h10]
    rfl
  rw [h1, h2, h3]
  rfl

theorem exp_bridge (c : List (PyStr × JValue)) :
    ∀ (k i : Nat) (headers : List PyStr), 10 - i ≤ k →
      pure_exp c i (headers.drop i) ++ pad_from (max i headers.length)
        = spec_expense_from headers c i := by
  intro k
  induction k with
  | zero => intro i headers hk; exact exp_bridge_ge c headers i (by omega)
  | succ k ih =>
    intro i headers hk
    by_cases hi : 10 ≤ i
    · exact exp_bridge_ge c headers i hi
    · have hilt : i < 10 := by omega
      have hsub : 10 - i = (10 - (i + 1)) + 1 := by omega
      cases hd : headers.drop i with
      | nil =>
        have hlen : headers.length ≤ i := by
          by_contra hcon
          rw [List.drop_eq_nil_iff] at hd
          omega
        have hmax : max i headers.length = i := Nat.max_eq_left hlen
        have hdrop1 : headers.drop (i + 1) = [] := by
          rw [List.drop_eq_nil_iff]; omega
        have hget : headers[i]? = none := List.getElem?_eq_none hlen
        have ihs := ih (i + 1) headers (by omega)
        rw [hdrop1] at ihs
        have hmax1 : max (i + 1) headers.length = i + 1 := Nat.max_eq_left (by omega)
        rw [hmax1] at ihs
        have hpure1 : pure_exp c (i + 1) [] = [] := rfl
        rw [hpure1, List.nil_append] at ihs
        rw [hmax]
        show pure_exp c i [] ++ pad_from i = spec_expense_from headers c i
        unfold pad_from spec_expense_from
        rw [hsub, List.range'_succ, List.flatMap_cons, List.flatMap_cons]
        have hpair : spec_pair headers c i
            = [(expense_code_key (i + 1), JValue.null), (expense_amount_key (i + 1), JValue.null)] := by
          unfold spec_pair; rw [hget]
        rw [hpair]
        unfold pad_from spec_expense_from at ihs
        rw [ihs]
        rfl
      | cons a tl =>
        have hlen : i < headers.length := by
          by_contra hcon
          rw [not_lt] at hcon
          rw [List.drop_eq_nil_iff.mpr hcon] at hd
          exact List.noConfusion hd
        have htl : tl = headers.drop (i + 1) := by
          rw [← List.tail_drop, hd]
          rfl
        have hget : headers[i]? = some a := by
          have h0 : (headers.drop i)[0]? = some a := by rw [hd]; simp
          rwa [List.getElem?_drop, Nat.add_zero] at h0
        have hmax : max i headers.length = headers.length := Nat.max_eq_right (le_of_lt hlen)
        have hmax1 : max (i + 1) headers.length = headers.length := Nat.max_eq_right hlen
        have ihs := ih (i + 1) headers (by omega)
        rw [hmax1] at ihs
        rw [hmax]
        show pure_exp c i (a :: tl) ++ pad_from headers.length = spec_expense_from headers c i
        unfold pure_exp
        rw [if_neg (by omega)]
        unfold spec_expense_from
        rw [hsub, List.range'_succ, List.flatMap_cons]
        have hpair : spec_pair headers c i
            = [(expense_code_key (i + 1), JValue.str a),
               (expense_amount_key (i + 1), dictGet c a JValue.null)] := by
          unfold spec_pair; rw [hget]
        rw [hpair]
        unfold spec_expense_from at ihs
        simp only [List.cons_append]
        rw [htl, ihs]
        rfl

/-- C1: for every header list and every member whose `Charges` value is a dict
(absent counts as the empty dict), the flattened row is the fixed fields
followed by exactly ten expense-code/amount pairs, indices 1 to 10: pairs whose
index is within the header count carry the header label and the member's charge
value for it, later pairs are null, and headers beyond the tenth contribute no
pair (`spec_expense_pairs` ranges over indices 0..9 only). -/
theorem c1_template_ten_pairs :
    ∀ (headers : List PyStr) (m c : List (PyStr × JValue)),
      dictGet m ("Charges".toList) (.obj []) = .obj c →
      flatten_member headers (.obj m)
        = .ok (template_fixed_fields m ++ spec_expense_pairs headers c) := by
  intro headers m c hc
  unfold flatten_member
  dsimp only
  rw [hc, expense_loop_obj]
  have hb := exp_bridge c 10 0 headers (by omega)
  rw [List.drop_zero, Nat.zero_max] at hb
  unfold spec_expense_pairs
  show Except.ok (template_fixed_fields m ++ pure_exp c 0 headers ++ pad_from headers.length)
    = Except.ok (template_fixed_fields m ++ spec_expense_from headers c 0)
  rw [List.append_assoc, hb]

theorem c1_witness :
    dictGet [(("Charges".toList), JValue.obj [(("Tax".toList), JValue.str ("100".toList))])]
        ("Charges".toList) (.obj [])
      = .obj [(("Tax".toList), JValue.str ("100".toList))]
    ∧ flatten_member [("Tax".toList)]
        (.obj [(("Charges".toList), JValue.obj [(("Tax".toList), JValue.str ("100".toList))])])
      = .ok (template_fixed_fields
            [(("Charges".toList), JValue.obj [(("Tax".toList), JValue.str ("100".toList))])]
          ++ spec_expense_pairs [("Tax".toList)] [(("Tax".toList), JValue.str ("100".toList))]) :=
  ⟨rfl, c1_template_ten_pairs _ _ _ rfl⟩

theorem all_objs_map (rows : List (List (PyStr × JValue))) :
    all_objs (rows.map JValue.obj) = some rows := by
  induction rows with
  | nil => rfl
  | cons r rs ih => simp [all_objs, ih]

theorem beq_pystr (x k : PyStr) : (x == k) = decide (x = k) := by
  cases h : decide (x = k)
  · simp at h; simpa using h
  · simp at h; simp [h]

theorem filter_not_append (ks acc : List PyStr) (k : PyStr) :
    ks.filter (fun x => !((acc ++ [k]).contains x))
      = (ks.filter (fun x => !(acc.contains x))).filter (fun x => !(x == k)) := by
  rw [List.filter_filter]
  apply List.filter_congr
  intro x _
  by_cases h1 : x ∈ acc <;> by_cases h2 : x = k <;> simp [beq_pystr, h1, h2]

theorem foldl_insert_key_eq (ks : List PyStr) :
    ∀ acc, List.foldl insert_key acc ks
      = acc ++ dedup_first (ks.filter (fun k => !(acc.contains k))) := by
  induction ks with
  | nil => intro acc; simp [dedup_first]
  | cons k ks ih =>
    intro acc
    simp only [List.foldl_cons, List.filter_cons]
    by_cases hc : acc.contains k
    · have hc' : acc.contains k = true := hc
      have h1 : insert_key acc k = acc := by unfold insert_key; rw [hc']; simp
      rw [h1, ih acc, hc', Bool.not_true, if_neg (by simp)]
    · have hc' : acc.contains k = false := by simpa using hc
      have h1 : insert_key acc k = acc ++ [k] := by unfold insert_key; rw [hc']; simp
      rw [h1, ih (acc ++ [k]), hc', Bool.not_false, if_pos rfl, filter_not_append]
      have h2 : dedup_first (k :: ks.filter (fun x => !(acc.contains x)))
          = k :: dedup_first ((ks.filter (fun x => !(acc.contains x))).filter (fun x => !(x == k))) := by
        simp only [dedup_first]
      rw [h2, List.append_assoc]
      rfl

theorem first_seen_eq_dedup (rows : List (List (PyStr × JValue))) :
    first_seen_columns rows = dedup_first (rows.flatMap (fun r => r.map Prod.fst)) := by
  have h1 : ∀ acc, rows.foldl (fun acc r => r.foldl (fun a kv => insert_key a kv.1) acc) acc
      = List.foldl insert_key acc (rows.flatMap (fun r => r.map Prod.fst)) := by
    induction rows with
    | nil => intro acc; rfl
    | cons r rs ih =>
      intro acc
      simp only [List.foldl_cons, List.flatMap_cons, List.foldl_append]
      rw [ih, List.foldl_map]
  rw [first_seen_columns, h1, foldl_insert_key_eq]
  simp

theorem lookup_nodup {r : List (PyStr × JValue)} (hnd : (r.map Prod.fst).Nodup) :
    ∀ {k : PyStr} {v : JValue}, (k, v) ∈ r → dictGet r k JValue.null = v := by
  induction r with
  | nil => intro k v h; cases h
  | cons p rest ih =>
    intro k v h
    rw [List.map_cons, List.nodup_cons] at hnd
    obtain ⟨hk, hnd'⟩ := hnd
    cases h with
    | head =>
      simp [dictGet, lookup_str, List.find?]
    | tail _ hmem =>
      by_cases hek : p.1 == k
      · exfalso
        have hpk : p.1 = k := eq_of_beq hek
        exact hk (hpk ▸ List.mem_map_of_mem Prod.fst hmem)
      · have hek' : (p.1 == k) = false := by simpa using hek
        have : dictGet (p :: rest) k JValue.null = dictGet rest k JValue.null := by
          simp [dictGet, lookup_str, List.find?, hek']
        rw [this]
        exact ih hnd' hmem

/-- C9: in the direct-export flow every extracted JSON object becomes one output
row whose cells are looked up from that object unchanged, the columns are the
union of keys across rows in first-seen order (`dedup_first` of the
concatenated key lists), and the result is a single sheet named
"Extracted Data" with no index column. -/
theorem c9_direct_export :
    ∀ (loads : PyStr → Except PyStr JValue) (resp : PyStr)
      (rows : List (List (PyStr × JValue))),
      loads (clean_response resp) = .ok (.arr (rows.map JValue.obj)) →
      rows ≠ [] →
      (export_to_excel loads resp
        = .success ⟨("Extracted Data".toList), false,
            dedup_first (rows.flatMap (fun r => r.map Prod.fst)),
            rows.map (fun r => (dedup_first (rows.flatMap (fun r => r.map Prod.fst))).map
              (fun col => dictGet r col JValue.null))⟩)
      ∧ (∀ r ∈ rows, (r.map Prod.fst).Nodup →
          ∀ kv ∈ r, dictGet r kv.1 JValue.null = kv.2) := by
  intro loads resp rows hloads hne
  constructor
  · have hfal : py_falsy (.arr (rows.map JValue.obj)) = false := by
      cases rows with
      | nil => exact absurd rfl hne
      | cons r rs => rfl
    simp only [export_to_excel, hloads, hfal, Bool.false_eq_true, if_false,
      data_frame_records, all_objs_map, first_seen_eq_dedup]
  · intro r hr hnd kv hkv
    have : (kv.1, kv.2) ∈ r := by simpa using hkv
    exact lookup_nodup hnd this


theorem c9_witness :
    (loads_two_rows (clean_response ("x".toList))
        = .ok (.arr ([[(("a".toList), JValue.str ("1".toList)), (("b".toList), JValue.str ("2".toList))],
            [(("c".toList), JValue.str ("3".toList)), (("a".toList), JValue.str ("4".toList))]].map JValue.obj))
      ∧ ([[(("a".toList), JValue.str ("1".toList)), (("b".toList), JValue.str ("2".toList))],
          [(("c".toList), JValue.str ("3".toList)), (("a".toList), JValue.str ("4".toList))]] :
            List (List (PyStr × JValue))) ≠ [])
    ∧ ((export_to_excel loads_two_rows ("x".toList)
        = .success ⟨("Extracted Data".toList), false,
            dedup_first ([[(("a".toList), JValue.str ("1".toList)), (("b".toList), JValue.str ("2".toList))],
                [(("c".toList), JValue.str ("3".toList)), (("a".toList), JValue.str ("4".toList))]].flatMap
              (fun r => r.map Prod.fst)),
            [[(("a".toList), JValue.str ("1".toList)), (("b".toList), JValue.str ("2".toList))],
              [(("c".toList), JValue.str ("3".toList)), (("a".toList), JValue.str ("4".toList))]].map
              (fun r => (dedup_first ([[(("a".toList), JValue.str ("1".toList)), (("b".toList), JValue.str ("2".toList))],
                  [(("c".toList), JValue.str ("3".toList)), (("a".toList), JValue.str ("4".toList))]].flatMap
                (fun r => r.map Prod.fst))).map (fun col => dictGet r col JValue.null))⟩)
      ∧ (∀ r ∈ ([[(("a".toList), JValue.str ("1".toList)), (("b".toList), JValue.str ("2".toList))],
            [(("c".toList), JValue.str ("3".toList)), (("a".toList), JValue.str ("4".toList))]] :
              List (List (PyStr × JValue))), (r.map Prod.fst).Nodup →
          ∀ kv ∈ r, dictGet r kv.1 JValue.null = kv.2)) :=
  ⟨⟨rfl, by simp⟩, c9_direct_export loads_two_rows _ _ rfl (by simp)⟩

theorem remove_all_aux_skip (pat : PyStr) :
    ∀ (s : PyStr) (k : Nat), remove_all_aux pat s k = remove_all_aux pat (s.drop k) 0 := by
  intro s
  induction s with
  | nil =>
    intro k
    rw [List.drop_nil]
    rfl
  | cons c rest ih =>
    intro k
    cases k with
    | zero => rw [List.drop_zero]
    | succ j => exact ih j

theorem remove_all_cons (pat : PyStr) (c : Char) (rest : PyStr) :
    remove_all pat (c :: rest)
      = if pat.isPrefixOf (c :: rest) then remove_all pat (rest.drop (pat.length - 1))
        else c :: remove_all pat rest := by
  show remove_all_aux pat (c :: rest) 0 = _
  unfold remove_all_aux
  by_cases h : pat.isPrefixOf (c :: rest)
  · rw [if_pos h, if_pos h, remove_all_aux_skip]
    rfl
  · rw [if_neg h, if_neg h]
    rfl

theorem remove_all_consume {pat : PyStr} (hne : pat ≠ []) (s : PyStr) :
    remove_all pat (pat ++ s) = remove_all pat s := by
  cases pat with
  | nil => exact absurd rfl hne
  | cons p pt =>
    rw [List.cons_append, remove_all_cons]
    have hp : (p :: pt).isPrefixOf ((p :: pt) ++ s) = true := by
      rw [List.isPrefixOf_iff_prefix]
      exact List.prefix_append _ _
    rw [List.cons_append] at hp
    rw [if_pos hp]
    have : (pt ++ s).drop ((p :: pt).length - 1) = s := by
      have h1 : (p :: pt).length - 1 = pt.length := by simp
      rw [h1, List.drop_left]
    rw [this]

theorem remove_all_of_not_mem {pat : PyStr} {ch : Char} (hc : ch ∈ pat) :
    ∀ {s : PyStr}, ch ∉ s → remove_all pat s = s := by
  intro s
  induction s with
  | nil => intro _; rfl
  | cons c rest ih =>
    intro hn
    rw [remove_all_cons]
    have hp : ¬ pat.isPrefixOf (c :: rest) = true := by
      rw [List.isPrefixOf_iff_prefix]
      intro hpre
      exact hn (hpre.subset hc)
    rw [if_neg hp]
    rw [ih (fun hmem => hn (List.mem_cons_of_mem c hmem))]

theorem remove_all_peel {p : Char} {pt : PyStr} {c : Char} (hne : c ≠ p) (s : PyStr) :
    remove_all (p :: pt) (c :: s) = c :: remove_all (p :: pt) s := by
  rw [remove_all_cons]
  have hp : ¬ (p :: pt).isPrefixOf (c :: s) = true := by
    rw [List.isPrefixOf_iff_prefix]
    intro hpre
    obtain ⟨r, hr⟩ := hpre
    rw [List.cons_append] at hr
    exact hne (List.head_eq_of_cons_eq hr).symm
  rw [if_neg hp]

theorem remove_all_peel_lead {p : Char} {pt : PyStr} {lead : PyStr}
    (h : ∀ ch ∈ lead, ch ≠ p) (s : PyStr) :
    remove_all (p :: pt) (lead ++ s) = lead ++ remove_all (p :: pt) s := by
  induction lead with
  | nil => rfl
  | cons c l ih =>
    rw [List.cons_append, remove_all_peel (h c (List.mem_cons_self c l)) (l ++ s),
      ih (fun ch hm => h ch (List.mem_cons_of_mem c hm)), List.cons_append]

theorem isPrefixOf_append_of_le {pat x : PyStr} (y : PyStr) (h : pat.length ≤ x.length) :
    pat.isPrefixOf (x ++ y) = pat.isPrefixOf x := by
  rw [Bool.eq_iff_iff, List.isPrefixOf_iff_prefix, List.isPrefixOf_iff_prefix,
    List.prefix_iff_eq_take, List.prefix_iff_eq_take, List.take_append_eq_append_take,
    Nat.sub_eq_zero_of_le h, List.take_zero, List.append_nil]

theorem mem_of_prefix_long {pat x : PyStr} {r : Char} {rs : PyStr}
    (hp : pat <+: (x ++ r :: rs)) (h : x.length < pat.length) : r ∈ pat := by
  rw [List.prefix_iff_eq_take] at hp
  rw [hp, List.take_append_eq_append_take]
  apply List.mem_append.mpr
  right
  cases hk : pat.length - x.length with
  | zero => omega
  | succ k =>
    rw [List.take_succ_cons]
    exact List.mem_cons_self _ _

theorem remove_all_split {p : Char} {pt : PyStr} {r : Char} {rs : PyStr}
    (hr : r ∉ (p :: pt)) :
    ∀ (n : Nat) (s : PyStr), s.length ≤ n →
      remove_all (p :: pt) (s ++ r :: rs)
        = remove_all (p :: pt) s ++ remove_all (p :: pt) (r :: rs) := by
  intro n
  induction n with
  | zero =>
    intro s hs
    have hnil : s = [] := List.eq_nil_of_length_eq_zero (Nat.le_zero.mp hs)
    subst hnil
    rfl
  | succ n ih =>
    intro s hs
    cases s with
    | nil => rfl
    | cons c s' =>
      by_cases hp : (p :: pt).isPrefixOf (c :: s') = true
      · have hple : (p :: pt).length ≤ (c :: s').length :=
          (List.isPrefixOf_iff_prefix.mp hp).length_le
        have hp2 : (p :: pt).isPrefixOf (c :: (s' ++ r :: rs)) = true := by
          rw [← List.cons_append, isPrefixOf_append_of_le _ hple]
          exact hp
        rw [List.cons_append, remove_all_cons, remove_all_cons, if_pos hp2, if_pos hp]
        have hle' : (p :: pt).length - 1 ≤ s'.length := by
          simp only [List.length_cons] at hple ⊢
          omega
        have hd : (s' ++ r :: rs).drop ((p :: pt).length - 1)
            = s'.drop ((p :: pt).length - 1) ++ r :: rs := by
          rw [List.drop_append_eq_append_drop, Nat.sub_eq_zero_of_le hle', List.drop_zero]
        rw [hd]
        apply ih
        have hdl : (s'.drop ((p :: pt).length - 1)).length ≤ s'.length := by
          rw [List.length_drop]
          omega
        simp only [List.length_cons] at hs
        omega
      · have hp2 : ¬ (p :: pt).isPrefixOf (c :: (s' ++ r :: rs)) = true := by
          by_cases hle : (p :: pt).length ≤ (c :: s').length
          · rw [← List.cons_append, isPrefixOf_append_of_le _ hle]
            exact hp
          · intro hcon
            rw [← List.cons_append] at hcon
            exact hr (mem_of_prefix_long (List.isPrefixOf_iff_prefix.mp hcon) (by omega))
        rw [List.cons_append, remove_all_cons, if_neg hp2, remove_all_cons, if_neg hp,
          List.cons_append]
        have hs' : s'.length ≤ n := by
          simp only [List.length_cons] at hs
          omega
        rw [ih s' hs']

theorem dropWhile_append_all {p : Char → Bool} {a : PyStr}
    (h : ∀ ch ∈ a, p ch = true) (s : PyStr) :
    (a ++ s).dropWhile p = s.dropWhile p := by
  induction a with
  | nil => rfl
  | cons c l ih =>
    rw [List.cons_append, List.dropWhile_cons, if_pos (h c (List.mem_cons_self c l))]
    exact ih (fun ch hm => h ch (List.mem_cons_of_mem c hm))

theorem dropWhile_append_ne_nil {p : Char → Bool} {s : PyStr}
    (h : s.dropWhile p ≠ []) (b : PyStr) :
    (s ++ b).dropWhile p = s.dropWhile p ++ b := by
  induction s with
  | nil => exact absurd rfl h
  | cons c s' ih =>
    by_cases hc : p c = true
    · have h' : s'.dropWhile p ≠ [] := by
        rw [List.dropWhile_cons, if_pos hc] at h
        exact h
      rw [List.cons_append, List.dropWhile_cons, if_pos hc,
        List.dropWhile_cons, if_pos hc, ih h']
    · rw [List.cons_append, List.dropWhile_cons, if_neg hc,
        List.dropWhile_cons, if_neg hc, List.cons_append]

theorem py_strip_lead {a : PyStr} (h : ∀ ch ∈ a, ch.isWhitespace = true) (s : PyStr) :
    py_strip (a ++ s) = py_strip s := by
  unfold py_strip
  rw [dropWhile_append_all h]

theorem py_strip_trail {b : PyStr} (h : ∀ ch ∈ b, ch.isWhitespace = true) (s : PyStr) :
    py_strip (s ++ b) = py_strip s := by
  by_cases hd : s.dropWhile Char.isWhitespace = []
  · have hall : ∀ ch ∈ s, ch.isWhitespace = true := by
      intro ch hm
      exact List.dropWhile_eq_nil_iff.mp hd ch hm
    have h2 : (s ++ b).dropWhile Char.isWhitespace = [] := by
      rw [List.dropWhile_eq_nil_iff]
      intro ch hm
      rcases List.mem_append.mp hm with hm | hm
      · exact hall ch hm
      · exact h ch hm
    unfold py_strip
    rw [hd, h2]
  · unfold py_strip
    rw [dropWhile_append_ne_nil hd, List.reverse_append,
      dropWhile_append_all (fun ch hm => h ch (List.mem_reverse.mp hm))]

theorem py_strip_decomp (t : PyStr) :
    ∃ lws tws, (∀ ch ∈ lws, ch.isWhitespace = true) ∧ (∀ ch ∈ tws, ch.isWhitespace = true)
      ∧ t = lws ++ py_strip t ++ tws := by
  refine ⟨t.takeWhile Char.isWhitespace,
    ((t.dropWhile Char.isWhitespace).reverse.takeWhile Char.isWhitespace).reverse, ?_, ?_, ?_⟩
  · intro ch hm
    exact List.mem_takeWhile_imp hm
  · intro ch hm
    exact List.mem_takeWhile_imp (List.mem_reverse.mp hm)
  · rw [List.append_assoc]
    conv_lhs => rw [← List.takeWhile_append_dropWhile Char.isWhitespace t]
    congr 1
    conv_lhs => rw [← List.reverse_reverse (List.dropWhile Char.isWhitespace t),
      ← List.takeWhile_append_dropWhile Char.isWhitespace
        (List.dropWhile Char.isWhitespace t).reverse]
    rw [List.reverse_append]
    rfl


theorem ws_ne_backtick {ch : Char} (h : ch.isWhitespace = true) : ch ≠ '`' := by
  intro heq
  subst heq
  exact absurd h (by decide)

theorem ws_not_mem_fence_json {ch : Char} (h : ch.isWhitespace = true) :
    ch ∉ ("```json".toList) := by
  intro hmem
  have : ("```json".toList) = ['`', '`', '`', 'j', 's', 'o', 'n'] := rfl
  rw [this] at hmem
  simp only [List.mem_cons, List.not_mem_nil, or_false] at hmem
  rcases hmem with rfl | rfl | rfl | rfl | rfl | rfl | rfl <;> exact absurd h (by decide)

theorem ws_not_mem_fence {ch : Char} (h : ch.isWhitespace = true) :
    ch ∉ ("```".toList) := by
  intro hmem
  have : ("```".toList) = ['`', '`', '`'] := rfl
  rw [this] at hmem
  simp only [List.mem_cons, List.not_mem_nil, or_false] at hmem
  rcases hmem with rfl | rfl | rfl <;> exact absurd h (by decide)

theorem ws_rest_head {tws : PyStr} (htws : ∀ ch ∈ tws, ch.isWhitespace = true) (z : PyStr) :
    ∃ r rs, tws ++ '\n' :: z = r :: rs ∧ r.isWhitespace = true := by
  cases tws with
  | nil => exact ⟨'\n', z, rfl, by decide⟩
  | cons c l => exact ⟨c, l ++ '\n' :: z, rfl, htws c (List.mem_cons_self c l)⟩

theorem py_strip_wrap (t : PyStr) : py_strip (code_fence_wrap t) = code_fence_wrap t := by
  have hcons : code_fence_wrap t
      = '`' :: (("``json\n".toList) ++ (t ++ ("\n```".toList))) := rfl
  have hrev : (code_fence_wrap t).reverse
      = '`' :: ('`' :: '`' :: '\n' :: (t.reverse ++ ("```json\n".toList).reverse)) := by
    show ((("```json\n".toList) ++ t) ++ ("\n```".toList)).reverse = _
    rw [List.reverse_append, List.reverse_append]
    rfl
  unfold py_strip
  rw [hcons, List.dropWhile_cons, if_neg (by decide), ← hcons, hrev,
    List.dropWhile_cons, if_neg (by decide), ← hrev, List.reverse_reverse]

theorem clean_response_wrap (t : PyStr) :
    ∃ lws tws, (∀ ch ∈ lws, ch.isWhitespace = true) ∧ (∀ ch ∈ tws, ch.isWhitespace = true) ∧
      clean_response (code_fence_wrap t)
        = ('\n' :: lws) ++ (clean_response t ++ (tws ++ ['\n'])) := by
  obtain ⟨lws, tws, hlws, htws, hdecomp⟩ := py_strip_decomp t
  refine ⟨lws, tws, hlws, htws, ?_⟩
  unfold clean_response
  rw [py_strip_wrap]
  have e1 : ("```json".toList) = '`' :: ("``json".toList) := rfl
  have e2 : ("```".toList) = '`' :: ("``".toList) := rfl
  have hshape : code_fence_wrap t
      = ("```json".toList) ++ ('\n' :: (t ++ ('\n' :: ("```".toList)))) := rfl
  rw [hshape, remove_all_consume (by decide)]
  rw [e1, remove_all_peel (by decide)]
  have hsplit : t ++ ('\n' :: ("```".toList))
      = lws ++ ((py_strip t) ++ (tws ++ ('\n' :: ("```".toList)))) := by
    conv_lhs => rw [hdecomp]
    simp [List.append_assoc]
  rw [hsplit]
  rw [remove_all_peel_lead (fun ch hm => ws_ne_backtick (hlws ch hm))]
  obtain ⟨r, rs, hrest, hr⟩ := ws_rest_head htws ("```".toList)
  rw [hrest, remove_all_split (fun hm => ws_not_mem_fence_json hr (e1 ▸ hm))
      (py_strip t).length (py_strip t) le_rfl, ← hrest]
  have hnomem : remove_all ('`' :: ("``json".toList)) (tws ++ '\n' :: ("```".toList))
      = tws ++ '\n' :: ("```".toList) := by
    apply remove_all_of_not_mem (show ('j' : Char) ∈ ('`' :: ("``json".toList)) by decide)
    intro hmem
    rcases List.mem_append.mp hmem with hm | hm
    · exact absurd (htws _ hm) (by decide)
    · rcases List.mem_cons.mp hm with h | h
      · exact absurd h (by decide)
      · exact absurd h (by decide)
  rw [hnomem]
  rw [e2, remove_all_peel (by decide)]
  rw [remove_all_peel_lead (fun ch hm => ws_ne_backtick (hlws ch hm))]
  have hrest2 := hrest
  rw [e2] at hrest2
  rw [hrest2, remove_all_split (fun hm => ws_not_mem_fence hr (e2 ▸ hm))
      (remove_all ('`' :: ("``json".toList)) (py_strip t)).length _ le_rfl, ← hrest2]
  have hfence : remove_all ('`' :: ("``".toList)) (tws ++ '\n' :: ('`' :: ("``".toList)))
      = tws ++ ['\n'] := by
    rw [remove_all_peel_lead (fun ch hm => ws_ne_backtick (htws ch hm)),
      remove_all_peel (by decide)]
    have h0 := @remove_all_consume ('`' :: ("``".toList)) (by decide) []
    rw [List.append_nil] at h0
    rw [h0]
    rfl
  rw [hfence]
  rw [← e1, ← e2]
  simp [List.append_assoc]

theorem py_strip_idem (t : PyStr) : py_strip (py_strip t) = py_strip t := by
  obtain ⟨lws, tws, hl, ht, hdec⟩ := py_strip_decomp t
  conv_rhs => rw [hdec]
  rw [py_strip_trail ht, py_strip_lead hl]

/-- C7: for every response text `t` and every parse function that is
insensitive to surrounding whitespace (as `json.loads` is), the shared cleaning
step (line 121 and line 171) yields the same parsed value on the
code-fence-wrapped text as on the unwrapped text. -/
theorem c7_code_fence_invariance {α : Type} (parse : PyStr → α)
    (hp : ∀ s, parse s = parse (py_strip s)) (t : PyStr) :
    parse (clean_response (code_fence_wrap t)) = parse (clean_response t) := by
  obtain ⟨lws, tws, hlws, htws, heq⟩ := clean_response_wrap t
  rw [heq, hp]
  have hlead : ∀ ch ∈ ('\n' :: lws), ch.isWhitespace = true := by
    intro ch hm
    rcases List.mem_cons.mp hm with rfl | hm
    · decide
    · exact hlws ch hm
  have htrail : ∀ ch ∈ (tws ++ ['\n']), ch.isWhitespace = true := by
    intro ch hm
    rcases List.mem_append.mp hm with hm | hm
    · exact htws ch hm
    · rcases List.mem_cons.mp hm with rfl | hm
      · decide
      · exact absurd hm (List.not_mem_nil ch)
  rw [py_strip_lead hlead, py_strip_trail htrail]
  exact (hp _).symm

theorem c7_witness :
    py_strip (clean_response (code_fence_wrap ("[1, 2]".toList)))
      = py_strip (clean_response ("[1, 2]".toList)) :=
  c7_code_fence_invariance py_strip (fun s => (py_strip_idem s).symm) ("[1, 2]".toList)
